import Mathlib

/-!
Verification development for the website-review crawler.

The definitions below are a shallow embedding of the TypeScript sources
(`src/utils.ts`, `src/tools/crawl.ts`, `src/tools/broken-links.ts`).
Network and filesystem effects are made explicit: the outcome of every
fetch is supplied as a function argument (a "world"), timestamps and
durations are plain parameters, and functions that `throw` return an
`Option`/`Except`.  Everything else follows the source line by line.
-/

namespace WebReview

/-! ## URL parsing (the fragment of the WHATWG URL object the sources read)

The sources only ever construct `new URL(...)` on http(s) URLs (seed URLs,
sitemap entries, link targets that passed the `startsWith('http')` filter),
and only read `protocol`, `host`, `hostname`, `pathname` and `origin`.
`parseURL` models the WHATWG parser on that fragment: scheme, host
(hostname plus optional port) and path, with query and fragment stripped
from the path.  A string that is not an absolute http(s) URL parses to
`none`, modelling the `TypeError` that the sources catch. -/

/-- The prefix test `s.startsWith pre` (JS and Lean agree on its meaning);
spelled out on the character lists so it can be reasoned about directly. -/
def strStartsWith (s pre : String) : Bool :=
  pre.toList.isPrefixOf s.toList

structure ParsedURL where
  scheme : String
  host : String
  path : String
  deriving Repr, DecidableEq

def parseURL (s : String) : Option ParsedURL :=
  let core :=
    if strStartsWith s ("https://") then some ((("https" : String)), String.mk (s.toList.drop 8))
    else if strStartsWith s ("http://") then some ((("http" : String)), String.mk (s.toList.drop 7))
    else none
  match core with
  | none => none
  | some (scheme, rest) =>
    let cs := rest.toList
    let hostCs := cs.takeWhile (fun c => c ≠ '/' && c ≠ '?' && c ≠ '#')
    if hostCs.isEmpty then none
    else
      let afterHost := cs.drop hostCs.length
      let path :=
        match afterHost with
        | [] => (("/" : String))
        | c :: _ =>
          if c = '/' then String.mk (afterHost.takeWhile (fun c2 => c2 ≠ '?' && c2 ≠ '#'))
          else (("/" : String))
      some ⟨scheme, String.mk hostCs, path⟩

/-- Model of `url.hostname`: the host with any `:port` suffix removed. -/
def hostnameOf (u : ParsedURL) : String :=
  String.mk (u.host.toList.takeWhile (fun c => c ≠ ':'))

/-- Model of `url.origin` for an http(s) URL: scheme, `://`, host. -/
def originOf (u : ParsedURL) : String :=
  u.scheme ++ ("://") ++ u.host

/-- Function `isValidUrl` from utils.ts: `new URL(url)` succeeds. -/
def isValidUrl (s : String) : Bool :=
  (parseURL s).isSome

/-- Function `isSameDomain` from utils.ts: both URLs parse and their hostnames are
equal; any parse failure yields `false`. -/
def isSameDomain (url1 url2 : String) : Bool :=
  match parseURL url1, parseURL url2 with
  | some a, some b => hostnameOf a = hostnameOf b
  | _, _ => false

/-- Drop the first occurrence of `pat` from a character list
(JS `String.replace` with a string pattern replaces only the first
occurrence). -/
def removeFirstOccAux (pat : List Char) : List Char → List Char
  | [] => []
  | c :: cs =>
    if pat.isPrefixOf (c :: cs) then (c :: cs).drop pat.length
    else c :: removeFirstOccAux pat cs

def removeFirstOcc (s pat : String) : String :=
  String.mk (removeFirstOccAux pat.toList s.toList)

/-- Function `extractDomain` from utils.ts: hostname with the first `www.` removed,
`unknown-domain` when the URL does not parse. -/
def extractDomain (url : String) : String :=
  match parseURL url with
  | some u => removeFirstOcc (hostnameOf u) ("www.")
  | none => ("unknown-domain")

/-! ## normalizeUrl -/

/-- Split a character list at every occurrence of `sep`
(`String.split`/JS `split` semantics: n separators yield n+1 pieces,
empty pieces included). -/
def splitOnChar (sep : Char) : List Char → List Char → List (List Char)
  | [], cur => [cur.reverse]
  | c :: cs, cur =>
    if c = sep then cur.reverse :: splitOnChar sep cs []
    else splitOnChar sep cs (c :: cur)

/-- Model of `s.trim()`: whitespace removed from both ends. -/
def strTrim (s : String) : String :=
  String.mk (((s.toList.dropWhile Char.isWhitespace).reverse.dropWhile
    Char.isWhitespace).reverse)

/-- The base path up to and including its last `/` (the "directory" the
WHATWG resolver merges a relative reference into). -/
def dirOf (p : String) : String :=
  String.mk ((p.toList.reverse.dropWhile (fun c => c ≠ '/')).reverse)

/-- Remove `.` and `..` segments (RFC 3986 §5.2.4, as WHATWG resolution
performs it).  `acc` holds the output segments in reverse. -/
def collapseSegs (acc : List (List Char)) : List (List Char) → List (List Char)
  | [] => acc.reverse
  | s :: rest =>
    if s = [('.' : Char)] then
      if rest.isEmpty then (([] : List Char) :: acc).reverse else collapseSegs acc rest
    else if s = [('.' : Char), ('.' : Char)] then
      if rest.isEmpty then (([] : List Char) :: acc.tail).reverse
      else collapseSegs acc.tail rest
    else collapseSegs (s :: acc) rest

/-- Join segments with `/` separators (inverse of splitting). -/
def joinSegs : List (List Char) → List Char
  | [] => []
  | [x] => x
  | x :: xs => x ++ '/' :: joinSegs xs

def removeDotSegments (p : String) : String :=
  String.mk ('/' :: joinSegs (collapseSegs [] (splitOnChar '/' (p.toList.drop 1) [])))

/-- Does the string begin with a URL scheme (`alpha (alphanum|+|-|.)* :`)?
Such a reference is absolute for the WHATWG resolver. -/
def hasScheme (s : String) : Bool :=
  match s.toList with
  | [] => false
  | c :: cs =>
    c.isAlpha &&
      ((cs.dropWhile (fun c2 => c2.isAlphanum || c2 = '+' || c2 = '-' || c2 = '.')).headD ' ' = ':')

def refPath (s : String) : String :=
  String.mk (s.toList.takeWhile (fun c => c ≠ '?' && c ≠ '#'))

def refSuffix (s : String) : String :=
  String.mk (s.toList.dropWhile (fun c => c ≠ '?' && c ≠ '#'))

/-- Models `new URL(rel, base).toString()` for the references that reach
the final branch of `normalizeUrl` (no leading `/`, `#` or `?`, and not an
absolute http(s) URL): a reference carrying its own scheme is returned
as-is, the empty reference resolves to the base, and a path reference is
merged into the base directory with dot segments removed, keeping any
query/fragment suffix of the reference. -/
def jsResolve (rel : String) (base : ParsedURL) : String :=
  if rel = ("") then base.scheme ++ ("://") ++ base.host ++ base.path
  else if hasScheme rel then rel
  else
    base.scheme ++ ("://") ++ base.host ++
      removeDotSegments (dirOf base.path ++ refPath rel) ++ refSuffix rel

/-- Function `normalizeUrl` from utils.ts.  `baseUrl` is optional as in the source;
the `catch` branch (base URL fails to parse) returns the input unchanged. -/
def normalizeUrl (url : String) (baseUrl : Option String) : String :=
  if strStartsWith url ("http://") || strStartsWith url ("https://") then url
  else
    match baseUrl with
    | none => url
    | some b =>
      match parseURL b with
      | none => url
      | some base =>
        if strStartsWith url ("/") then base.scheme ++ ("://") ++ base.host ++ url
        else if strStartsWith url ("#") || strStartsWith url ("?") then b ++ url
        else jsResolve url base

/-! ## Robots policy (`parseRobotsText` from utils.ts)

A directive value `p` becomes the JS regular expression
`new RegExp('^' + p.replace(/\x2a/g, '.*'))` and is tested with
`.test(path)`.  `starMatch` evaluates that anchored regex for patterns
built from literal characters, `.` (any character except a line
terminator) and `*` (which the source rewrites to `.*`); since the regex
is anchored only at the start, an exhausted pattern matches.  Every step
consumes a pattern or a subject character, so a fuel of
`pattern length + subject length + 1` (what `robotsPathMatch` passes)
never runs out; the fuel only makes the recursion structural. -/

def starMatch : Nat → List Char → List Char → Bool
  | 0, _, _ => false
  | _ + 1, [], _ => true
  | fuel + 1, '*' :: ps, s =>
    starMatch fuel ps s ||
      (match s with
       | [] => false
       | c :: cs => c ≠ '\n' && c ≠ '\r' && starMatch fuel ('*' :: ps) cs)
  | fuel + 1, '.' :: ps, s =>
    (match s with
     | [] => false
     | c :: cs => c ≠ '\n' && c ≠ '\r' && starMatch fuel ps cs)
  | fuel + 1, p :: ps, s =>
    (match s with
     | [] => false
     | c :: cs => p = c && starMatch fuel ps cs)

def robotsPathMatch (pat path : String) : Bool :=
  starMatch (pat.length + path.length + 1) pat.toList path.toList

/-- The state the `parseRobotsText` loop threads: the active user-agent
(`''` until a matching block is seen) and the accumulated rules. -/
structure RobotsParseState where
  currentAgent : String
  allow : List String
  disallow : List String
  canSitemap : Bool
  deriving Repr, DecidableEq

def robotsInit : RobotsParseState :=
  ⟨(""), [], [], true⟩

/-- One iteration of the `for (const line of lines)` loop in
`parseRobotsText`, for requested identity `ua`. -/
def robotsLine (ua : String) (st : RobotsParseState) (line : String) : RobotsParseState :=
  let trimmed := strTrim line
  if strStartsWith trimmed ("User-agent:") then
    let agent := strTrim (removeFirstOcc trimmed ("User-agent:"))
    if agent = ua || agent = ("*") then
      { st with currentAgent := agent, allow := [], disallow := [] }
    else st
  else if st.currentAgent ≠ ("") && strStartsWith trimmed ("Allow:") then
    let path := strTrim (removeFirstOcc trimmed ("Allow:"))
    if path ≠ ("") then { st with allow := st.allow ++ [path] } else st
  else if st.currentAgent ≠ ("") && strStartsWith trimmed ("Disallow:") then
    let path := strTrim (removeFirstOcc trimmed ("Disallow:"))
    if path ≠ ("") then { st with disallow := st.disallow ++ [path] } else st
  else if strStartsWith trimmed ("Sitemap:") then
    { st with canSitemap := true }
  else st

/-- The structure `parseRobotsText` returns: `canCrawl` closes over the
final `allow`/`disallow` lists, which we keep explicit. -/
structure RobotsPolicy where
  allow : List String
  disallow : List String
  canSitemap : Bool
  deriving Repr, DecidableEq

def parseRobotsText (robotsContent : String) (userAgent : String) : RobotsPolicy :=
  let lines := (splitOnChar '\n' robotsContent.toList []).map String.mk
  let final := lines.foldl (robotsLine userAgent) robotsInit
  ⟨final.allow, final.disallow, final.canSitemap⟩

/-- The `canCrawl` closure: the disallow loop returns `false` on the first
match; the allow loop returns `true` on the first match; otherwise
`true`. -/
def canCrawl (pol : RobotsPolicy) (path : String) : Bool :=
  if pol.disallow.any (fun pat => robotsPathMatch pat path) then false
  else if pol.allow.any (fun pat => robotsPathMatch pat path) then true
  else true

/-! ## Crawl engine (`src/tools/crawl.ts`)

`crawlPage` performs the fetch/parse of one page; its `try`/`catch`
returns the extracted `PageMetadata` on success and `null` on any failure.
We model its outcome as a function `world : String → Option PageMetadata`
supplied to the crawl: `none` is a failed fetch/parse, `some md` the
extracted metadata of a successful one.  Rate limiting (`sleep`) only
spends time and is dropped. -/

structure PageLinks where
  internal : List String
  external : List String
  deriving Repr, DecidableEq

structure PageHeadings where
  h1 : List String
  h2 : List String
  h3 : List String
  deriving Repr, DecidableEq

structure PageMetadata where
  url : String
  title : String
  description : String
  h1 : String
  canonical : String
  ogImage : String
  ogTitle : String
  ogDescription : String
  wordCount : Nat
  links : PageLinks
  headings : PageHeadings
  isIndexed : Bool
  noindex : Bool
  deriving Repr, DecidableEq

structure CrawlError where
  url : String
  error : String
  timestamp : String
  deriving Repr, DecidableEq

/-- The page map `pages : Map<string, PageMetadata>` in insertion order. -/
abbrev PagesMap := List (String × PageMetadata)

/-- Model of `pages.has(k)`. -/
def mapHas (m : PagesMap) (k : String) : Bool :=
  m.any (fun e => e.1 = k)

/-- Model of `pages.set(k, v)`: replace in place when the key exists, else append. -/
def mapSet (m : PagesMap) (k : String) (v : PageMetadata) : PagesMap :=
  if mapHas m k then m.map (fun e => if e.1 = k then (k, v) else e)
  else m ++ [(k, v)]

/-- The mutable state `recursiveCrawl` threads: the page map and the error
list. -/
structure CrawlState where
  pages : PagesMap
  errors : List CrawlError
  deriving Repr, DecidableEq

mutual

/-- Function `recursiveCrawl` from crawl.ts.  The guards mirror the source order:
depth/page-count bound, dedup against existing keys, URL parse +
robots check (a parse failure returns, as the `catch` does), then the
fetch.  A failed fetch (`world pageUrl = none`) adds nothing: `crawlPage`
catches its own errors and returns `null`, so the `catch` block of
`recursiveCrawl` that would append a `CrawlError` is unreachable. -/
def recursiveCrawl (world : String → Option PageMetadata) (canCrawlFn : String → Bool)
    (maxDepth maxPages : Nat) (pageUrl : String) (depth : Nat) (st : CrawlState) :
    CrawlState :=
  if _h : maxDepth < depth ∨ maxPages ≤ st.pages.length then st
  else if mapHas st.pages pageUrl then st
  else
    match parseURL pageUrl with
    | none => st
    | some urlObj =>
      if ¬ canCrawlFn urlObj.path then st
      else
        match world pageUrl with
        | none => st
        | some metadata =>
          let st1 : CrawlState := ⟨mapSet st.pages pageUrl metadata, st.errors⟩
          crawlChildLinks world canCrawlFn maxDepth maxPages metadata.links.internal
            (depth + 1) st1
  termination_by (maxDepth + 1 - depth, 0)

/-- The `for (const link of metadata.links.internal)` loop inside
`recursiveCrawl`, recursing into each not-yet-seen link while the page
budget allows. -/
def crawlChildLinks (world : String → Option PageMetadata) (canCrawlFn : String → Bool)
    (maxDepth maxPages : Nat) (links : List String) (depth : Nat) (st : CrawlState) :
    CrawlState :=
  match links with
  | [] => st
  | link :: rest =>
    let st1 :=
      if ¬ mapHas st.pages link ∧ st.pages.length < maxPages then
        recursiveCrawl world canCrawlFn maxDepth maxPages link depth st
      else st
    crawlChildLinks world canCrawlFn maxDepth maxPages rest depth st1
  termination_by (maxDepth + 1 - depth, links.length + 1)

end

/-- Function `fetchSitemap` from crawl.ts, with the fetched/parsed `<loc>` entries
supplied as `entries` (any network or XML failure is the empty list): the
source keeps the entries that are same-domain with the sitemap URL. -/
def fetchSitemap (entries : List String) (sitemapUrl : String) : List String :=
  entries.filter (fun u => isSameDomain u sitemapUrl)

/-- The sitemap branch of `crawlWebsite`: crawl each of the first
`maxPages` sitemap URLs, inserting only successful fetches. -/
def sitemapCrawlLoop (world : String → Option PageMetadata) :
    List String → PagesMap → PagesMap
  | [], pages => pages
  | u :: rest, pages =>
    match world u with
    | some metadata => sitemapCrawlLoop world rest (mapSet pages u metadata)
    | none => sitemapCrawlLoop world rest pages

structure CrawlResult where
  domain : String
  startUrl : String
  timestamp : String
  pages : List PageMetadata
  sitemapFound : Bool
  totalPages : Nat
  crawlDuration : Nat
  errors : List CrawlError
  deriving Repr, DecidableEq

/-- The page-graph/error state `crawlWebsite` has accumulated when it
builds its result: the sitemap branch when the (same-domain filtered)
sitemap is non-empty, the recursive branch otherwise, exactly as in the
source. -/
def crawlPagesMap (world : String → Option PageMetadata) (sitemapEntries : List String)
    (robotsTxt : String) (url : String) (seed : ParsedURL) (maxDepth maxPages : Nat)
    (respectRobotsTxt : Bool) : CrawlState :=
  let sitemapPages := fetchSitemap sitemapEntries (originOf seed ++ ("/sitemap.xml"))
  let canCrawlFn : String → Bool :=
    if respectRobotsTxt then canCrawl (parseRobotsText robotsTxt ("Googlebot"))
    else fun _ => true
  if sitemapPages.length > 0 then ⟨sitemapCrawlLoop world (sitemapPages.take maxPages) [], []⟩
  else recursiveCrawl world canCrawlFn maxDepth maxPages url 0 ⟨[], []⟩

/-- Function `crawlWebsite` from crawl.ts.  `sitemapEntries` is the parsed content
of the origin's `/sitemap.xml` (empty on any failure) and `robotsTxt` the
fetched robots document (`''` on failure); `timestamp` and
`crawlDuration` stand for the wall-clock values.  An invalid seed URL
throws; nothing else does (every inner failure is swallowed by the
source's inner `catch`es), so the result is `Except.ok` otherwise. -/
def crawlWebsite (world : String → Option PageMetadata) (sitemapEntries : List String)
    (robotsTxt : String) (url : String) (maxDepth maxPages : Nat)
    (respectRobotsTxt : Bool) (timestamp : String) (crawlDuration : Nat) :
    Except String CrawlResult :=
  match parseURL url with
  | none => Except.error (("Invalid URL: ") ++ url)
  | some seed =>
    let sitemapPages := fetchSitemap sitemapEntries (originOf seed ++ ("/sitemap.xml"))
    let st : CrawlState :=
      crawlPagesMap world sitemapEntries robotsTxt url seed maxDepth maxPages respectRobotsTxt
    Except.ok
      { domain := extractDomain url
        startUrl := url
        timestamp
        pages := st.pages.map (fun e => e.2)
        sitemapFound := sitemapPages.length > 0
        totalPages := st.pages.length
        crawlDuration
        errors := st.errors }

/-! ## Link-health checker (`src/tools/broken-links.ts`)

`checkLink` probes one URL with `axios.head` (`validateStatus: () => true`,
so every HTTP response lands in the `try` branch; only transport errors
throw).  We model the probe outcome per URL:
* `response status statusText requestUrl location` — an HTTP response;
  `requestUrl` is `response.request` as the source reads it (`none` when no
  request object is attached, `some u` its `url` field, itself optional),
  `location` the redirect location header/body field;
* `timeoutErr` — a transport error with `code === 'ECONNABORTED'` or a
  message containing `timeout`;
* `otherErr msg` — any other transport error. -/

inductive ProbeOutcome where
  | response (status : Nat) (statusText : String) (requestUrl : Option (Option String))
      (location : Option String)
  | timeoutErr
  | otherErr (msg : String)
  deriving Repr, DecidableEq

structure LinkStatus where
  url : String
  status : Nat
  statusText : String
  isWorking : Bool
  redirectUrl : Option String
  redirectChainLength : Nat
  responseTime : Nat
  error : Option String
  deriving Repr, DecidableEq

/-- Function `checkLink` from broken-links.ts; `responseTime` is the measured
wall-clock duration, passed in. -/
def checkLink (url : String) (outcome : ProbeOutcome) (responseTime : Nat) : LinkStatus :=
  match outcome with
  | .response status statusText requestUrl location =>
    let isWorking : Bool := 200 ≤ status && status < 400
    let redirectChainLength :=
      match requestUrl with
      | none => 0
      | some u => if u ≠ some url then 1 else 0
    { url, status, statusText, isWorking, redirectUrl := location,
      redirectChainLength, responseTime, error := none }
  | .timeoutErr =>
    { url, status := 0, statusText := ("Timeout"), isWorking := false,
      redirectUrl := none, redirectChainLength := 0, responseTime,
      error := some (("Request timeout")) }
  | .otherErr msg =>
    { url, status := 0, statusText := ("Error"), isWorking := false,
      redirectUrl := none, redirectChainLength := 0, responseTime,
      error := some msg }

/-- Does `sub` occur contiguously somewhere in the list? -/
def containsSeq (sub : List Char) : List Char → Bool
  | [] => sub.isEmpty
  | c :: cs => sub.isPrefixOf (c :: cs) || containsSeq sub cs

/-- JS `String.prototype.includes`: `sub` occurs contiguously in `s`. -/
def jsIncludes (s sub : String) : Bool :=
  containsSeq sub.toList s.toList

/-- A JS `new Set(...)` built by repeated `add`: first occurrence wins,
insertion order kept. -/
def jsSetAdd (l : List String) (x : String) : List String :=
  if l.contains x then l else l ++ [x]

def jsSetOfList (l : List String) : List String :=
  l.foldl jsSetAdd []

structure LinkSummary where
  total404 : Nat
  totalTimeouts : Nat
  totalRedirectChains : Nat
  deriving Repr, DecidableEq

structure BrokenLinkResult where
  domain : String
  timestamp : String
  brokenLinks : List LinkStatus
  workingLinks : Nat
  totalChecked : Nat
  orphanedPages : List String
  summary : LinkSummary
  deriving Repr, DecidableEq

/-- Function `findOrphanedPages` from broken-links.ts.  `crawlPages` is the `pages`
array read from the crawl-results file (`none` when the file is missing or
unreadable, which yields `[]`). -/
def findOrphanedPages (domain : String) (crawlPages : Option (List PageMetadata)) :
    List String :=
  match crawlPages with
  | none => []
  | some pages =>
    let allUrls := jsSetOfList (pages.map (fun p => p.url))
    let referencedUrls := jsSetOfList (pages.flatMap (fun p => p.links.internal))
    let baseUrl := ("https://") ++ domain
    allUrls.filter (fun url => url ≠ baseUrl && !(referencedUrls.contains url))

/-- The `for (const url of allLinks)` loop of `checkBrokenLinks`:
classify each candidate, counting working probes and collecting broken
entries.  `checkLink` never throws (its own `try`/`catch` is total), so
the loop's `catch` branch is unreachable and the loop always terminates
normally. -/
def checkLinksLoop (probe : String → ProbeOutcome) (time : String → Nat) :
    List String → Nat → List LinkStatus → Nat × List LinkStatus
  | [], workingCount, brokenLinks => (workingCount, brokenLinks)
  | url :: rest, workingCount, brokenLinks =>
    let status := checkLink url (probe url) (time url)
    if status.isWorking then checkLinksLoop probe time rest (workingCount + 1) brokenLinks
    else checkLinksLoop probe time rest workingCount (brokenLinks ++ [status])

/-- The candidate set `allLinks` of `checkBrokenLinks`: internal (and,
with `checkExternal`, external) links of every crawled page when
`useCrawlData` is set, then the explicitly provided `urls`, deduplicated
as a JS `Set`. -/
def collectAllLinks (crawlPages : Option (List PageMetadata)) (urls : List String)
    (useCrawlData checkExternal : Bool) : List String :=
  let fromCrawl :=
    if useCrawlData then
      match crawlPages with
      | none => []
      | some pages =>
        pages.flatMap (fun p =>
          p.links.internal ++ (if checkExternal then p.links.external else []))
    else []
  jsSetOfList (fromCrawl ++ urls)

/-- Function `checkBrokenLinks` from broken-links.ts.  `probe` gives each URL's
probe outcome and `time` its measured response time; `crawlPages` is the
stored crawl data; `timestamp` the wall clock.  The two `throw`s (no
domain, no candidate links) are the `Except.error` cases. -/
def checkBrokenLinks (probe : String → ProbeOutcome) (time : String → Nat)
    (crawlPages : Option (List PageMetadata)) (urls : List String)
    (providedDomain : Option String) (useCrawlData checkExternal : Bool)
    (timestamp : String) : Except String BrokenLinkResult :=
  let domain :=
    if urls.length > 0 then extractDomain (urls.headD (("")))
    else
      match providedDomain with
      | some d => d
      | none => ("")
  if domain = ("") then Except.error (("Must provide domain or URLs for link checking"))
  else
    let allLinks := collectAllLinks crawlPages urls useCrawlData checkExternal
    if allLinks.length = 0 then Except.error (("No links found to check"))
    else
      let loopOut := checkLinksLoop probe time allLinks 0 []
      let brokenLinks := loopOut.2
      let summary : LinkSummary :=
        { total404 := (brokenLinks.filter (fun l => l.status = 404)).length
          totalTimeouts :=
            (brokenLinks.filter (fun l => jsIncludes (l.error.getD ((""))) (("timeout")))).length
          totalRedirectChains := (brokenLinks.filter (fun l => l.redirectChainLength > 2)).length }
      Except.ok
        { domain
          timestamp
          brokenLinks
          workingLinks := loopOut.1
          totalChecked := allLinks.length
          orphanedPages := findOrphanedPages domain crawlPages
          summary }

/-! ## Concrete instances used in the claims below -/

/-- A page carrying only its URL and internal links, as `crawlPage`
produces for a page with no metadata and no headings. -/
def samplePage (url : String) (internal : List String) : PageMetadata :=
  ⟨url, (""), (""), (""), (""), (""), (""), (""), 0, ⟨internal, []⟩, ⟨[], [], []⟩, true, false⟩

/-- A two-page site whose root links to itself and to `/b`. -/
def selfLinkWorld : String → Option PageMetadata := fun u =>
  if u = ("https://site.example/") then
    some (samplePage ("https://site.example/")
      [("https://site.example/"), ("https://site.example/b")])
  else if u = ("https://site.example/b") then
    some (samplePage ("https://site.example/b") [("https://site.example/")])
  else none

/-- A site whose root links first to `/broken` (fetch fails) and then to
`/c` (fetch succeeds). -/
def failingFetchWorld : String → Option PageMetadata := fun u =>
  if u = ("https://site.example/") then
    some (samplePage ("https://site.example/")
      [("https://site.example/broken"), ("https://site.example/c")])
  else if u = ("https://site.example/c") then
    some (samplePage ("https://site.example/c") [])
  else none

/-- A probe for which every request times out. -/
def timeoutProbe : String → ProbeOutcome := fun _ => ProbeOutcome.timeoutErr

/-- The result of `checkBrokenLinks` on the single candidate
`https://site.example/t` probed through `timeoutProbe` with a 7 ms
response time. -/
def sampleTimeoutResult : BrokenLinkResult :=
  { domain := ("site.example")
    timestamp := ("ts")
    brokenLinks := [⟨("https://site.example/t"), 0, ("Timeout"), false, none, 0, 7,
      some (("Request timeout"))⟩]
    workingLinks := 0
    totalChecked := 1
    orphanedPages := []
    summary := ⟨0, 1, 0⟩ }

/-- The result of `crawlWebsite` on `selfLinkWorld` when the sitemap
lists exactly the root page. -/
def sampleSitemapCrawlResult : CrawlResult :=
  { domain := ("site.example")
    startUrl := ("https://site.example/")
    timestamp := ("ts")
    pages := [samplePage ("https://site.example/")
      [("https://site.example/"), ("https://site.example/b")]]
    sitemapFound := true
    totalPages := 1
    crawlDuration := 0
    errors := [] }

/-! ## Helper lemmas -/

theorem mapHas_iff (m : PagesMap) (k : String) :
    mapHas m k = true ↔ k ∈ m.map Prod.fst := by
  rw [mapHas, List.any_eq_true]
  simp only [decide_eq_true_eq, List.mem_map]

theorem mapHas_eq_false_iff (m : PagesMap) (k : String) :
    mapHas m k = false ↔ k ∉ m.map Prod.fst := by
  rw [← Bool.not_eq_true, not_iff_not, mapHas_iff]

theorem mapSet_of_has_eq_false (m : PagesMap) (k : String) (v : PageMetadata)
    (h : mapHas m k = false) : mapSet m k v = m ++ [(k, v)] := by
  simp [mapSet, h]

theorem mapSet_keys_of_has (m : PagesMap) (k : String) (v : PageMetadata)
    (h : mapHas m k = true) : (mapSet m k v).map Prod.fst = m.map Prod.fst := by
  simp only [mapSet, h, if_true, List.map_map]
  refine List.map_congr_left (fun e _ => ?e)
  by_cases he : e.1 = k <;> simp [he]

theorem mapSet_keys_of_has_eq_false (m : PagesMap) (k : String) (v : PageMetadata)
    (h : mapHas m k = false) : (mapSet m k v).map Prod.fst = m.map Prod.fst ++ [k] := by
  simp [mapSet_of_has_eq_false m k v h]

theorem mapSet_length_le (m : PagesMap) (k : String) (v : PageMetadata) :
    (mapSet m k v).length ≤ m.length + 1 := by
  by_cases h : mapHas m k = true <;> simp [mapSet, h]

theorem mapHas_append (m1 m2 : PagesMap) (k : String) :
    mapHas (m1 ++ m2) k = (mapHas m1 k || mapHas m2 k) := by
  simp [mapHas, List.any_append]

/-- The shape of a well-formed crawl state: no duplicate keys and at most
`maxPages` entries. -/
def PagesOk (maxPages : Nat) (st : CrawlState) : Prop :=
  (st.pages.map Prod.fst).Nodup ∧ st.pages.length ≤ maxPages

mutual

theorem recursiveCrawl_pagesOk (world : String → Option PageMetadata)
    (canCrawlFn : String → Bool) (maxDepth maxPages : Nat) (pageUrl : String)
    (depth : Nat) (st : CrawlState) (h : PagesOk maxPages st) :
    PagesOk maxPages (recursiveCrawl world canCrawlFn maxDepth maxPages pageUrl depth st) := by
  rw [recursiveCrawl.eq_def]
  split
  · exact h
  · rename_i hbound
    split
    · exact h
    · rename_i hseen
      cases hp : parseURL pageUrl with
      | none => exact h
      | some urlObj =>
        simp only
        split
        · exact h
        · cases hw : world pageUrl with
          | none => exact h
          | some metadata =>
            simp only
            apply crawlChildLinks_pagesOk
            have hseen' : mapHas st.pages pageUrl = false := by
              simpa using hseen
            have hlen : st.pages.length < maxPages := by omega
            constructor
            · rw [mapSet_keys_of_has_eq_false _ _ _ hseen', List.nodup_append]
              refine ⟨h.1, List.nodup_singleton _, ?disj⟩
              intro a ha hmem
              rw [List.mem_singleton] at hmem
              subst hmem
              exact (mapHas_eq_false_iff _ _).mp hseen' ha
            · rw [mapSet_of_has_eq_false _ _ _ hseen']
              simpa using hlen
  termination_by (maxDepth + 1 - depth, 0)

theorem crawlChildLinks_pagesOk (world : String → Option PageMetadata)
    (canCrawlFn : String → Bool) (maxDepth maxPages : Nat) (links : List String)
    (depth : Nat) (st : CrawlState) (h : PagesOk maxPages st) :
    PagesOk maxPages (crawlChildLinks world canCrawlFn maxDepth maxPages links depth st) := by
  cases links with
  | nil => rw [crawlChildLinks.eq_def]; exact h
  | cons link rest =>
    rw [crawlChildLinks.eq_def]
    simp only
    split
    · exact crawlChildLinks_pagesOk world canCrawlFn maxDepth maxPages rest depth _
        (recursiveCrawl_pagesOk world canCrawlFn maxDepth maxPages link depth st h)
    · exact crawlChildLinks_pagesOk world canCrawlFn maxDepth maxPages rest depth st h
  termination_by (maxDepth + 1 - depth, links.length + 1)

end

mutual

theorem recursiveCrawl_errors (world : String → Option PageMetadata)
    (canCrawlFn : String → Bool) (maxDepth maxPages : Nat) (pageUrl : String)
    (depth : Nat) (st : CrawlState) :
    (recursiveCrawl world canCrawlFn maxDepth maxPages pageUrl depth st).errors = st.errors := by
  rw [recursiveCrawl.eq_def]
  split
  · rfl
  · split
    · rfl
    · cases hp : parseURL pageUrl with
      | none => rfl
      | some urlObj =>
        simp only
        split
        · rfl
        · cases hw : world pageUrl with
          | none => rfl
          | some metadata =>
            simp only
            exact crawlChildLinks_errors world canCrawlFn maxDepth maxPages
              metadata.links.internal (depth + 1) _
  termination_by (maxDepth + 1 - depth, 0)

theorem crawlChildLinks_errors (world : String → Option PageMetadata)
    (canCrawlFn : String → Bool) (maxDepth maxPages : Nat) (links : List String)
    (depth : Nat) (st : CrawlState) :
    (crawlChildLinks world canCrawlFn maxDepth maxPages links depth st).errors = st.errors := by
  cases links with
  | nil => rw [crawlChildLinks.eq_def]
  | cons link rest =>
    rw [crawlChildLinks.eq_def]
    simp only
    split
    · rw [crawlChildLinks_errors world canCrawlFn maxDepth maxPages rest depth _,
        recursiveCrawl_errors world canCrawlFn maxDepth maxPages link depth st]
    · exact crawlChildLinks_errors world canCrawlFn maxDepth maxPages rest depth st
  termination_by (maxDepth + 1 - depth, links.length + 1)

end

theorem recursiveCrawl_depth_exceeded (world : String → Option PageMetadata)
    (canCrawlFn : String → Bool) (maxDepth maxPages : Nat) (pageUrl : String)
    (depth : Nat) (st : CrawlState) (h : maxDepth < depth) :
    recursiveCrawl world canCrawlFn maxDepth maxPages pageUrl depth st = st := by
  rw [recursiveCrawl.eq_def, dif_pos (Or.inl h)]

theorem sitemapCrawlLoop_length_le (world : String → Option PageMetadata)
    (urls : List String) (pages : PagesMap) :
    (sitemapCrawlLoop world urls pages).length ≤ pages.length + urls.length := by
  induction urls generalizing pages with
  | nil => simp [sitemapCrawlLoop]
  | cons u rest ih =>
    rw [sitemapCrawlLoop]
    cases hw : world u with
    | none =>
      calc (sitemapCrawlLoop world rest pages).length ≤ pages.length + rest.length := ih pages
        _ ≤ pages.length + (u :: rest).length := by simp
    | some md =>
      calc (sitemapCrawlLoop world rest (mapSet pages u md)).length
          ≤ (mapSet pages u md).length + rest.length := ih _
        _ ≤ (pages.length + 1) + rest.length := by
            have := mapSet_length_le pages u md
            omega
        _ = pages.length + (u :: rest).length := by simp; omega

theorem sitemapCrawlLoop_length_of_success (world : String → Option PageMetadata)
    (urls : List String) (pages : PagesMap) (hnd : urls.Nodup)
    (hs : ∀ u ∈ urls, (world u).isSome = true)
    (hfresh : ∀ u ∈ urls, mapHas pages u = false) :
    (sitemapCrawlLoop world urls pages).length = pages.length + urls.length := by
  induction urls generalizing pages with
  | nil => simp [sitemapCrawlLoop]
  | cons u rest ih =>
    rw [sitemapCrawlLoop]
    cases hw : world u with
    | none =>
      exfalso
      have := hs u (List.mem_cons_self u rest)
      rw [hw] at this
      simp at this
    | some md =>
      dsimp only
      rw [mapSet_of_has_eq_false _ _ _ (hfresh u (List.mem_cons_self u rest))]
      rw [ih (pages ++ [(u, md)]) (List.Nodup.of_cons hnd)
        (fun v hv => hs v (List.mem_cons_of_mem u hv))
        (fun v hv => ?fresh)]
      · simp [Nat.add_assoc, Nat.add_comm 1 rest.length]
      · rw [mapHas_append, Bool.or_eq_false_iff]
        refine ⟨hfresh v (List.mem_cons_of_mem u hv), ?one⟩
        have hne : u ≠ v := by
          intro he
          subst he
          exact (List.nodup_cons.mp hnd).1 hv
        simp [mapHas, hne]

theorem sitemapCrawlLoop_keys_nodup (world : String → Option PageMetadata)
    (urls : List String) (pages : PagesMap) (h : (pages.map Prod.fst).Nodup) :
    ((sitemapCrawlLoop world urls pages).map Prod.fst).Nodup := by
  induction urls generalizing pages with
  | nil => simpa [sitemapCrawlLoop] using h
  | cons u rest ih =>
    rw [sitemapCrawlLoop]
    cases hw : world u with
    | none => exact ih pages h
    | some md =>
      refine ih (mapSet pages u md) ?ok
      by_cases hh : mapHas pages u = true
      · rw [mapSet_keys_of_has _ _ _ hh]; exact h
      · rw [mapSet_keys_of_has_eq_false _ _ _ (by simpa using hh), List.nodup_append]
        refine ⟨h, List.nodup_singleton _, ?disj⟩
        intro a ha hmem
        rw [List.mem_singleton] at hmem
        subst hmem
        exact (mapHas_eq_false_iff _ _).mp (by simpa using hh) ha

theorem jsSetAdd_mem (l : List String) (x y : String) :
    y ∈ jsSetAdd l x ↔ y ∈ l ∨ y = x := by
  rw [jsSetAdd]
  split
  · rename_i hc
    have hx : x ∈ l := List.elem_iff.mp hc
    constructor
    · exact fun h => Or.inl h
    · rintro (h | rfl)
      · exact h
      · exact hx
  · simp

theorem jsSetOfList_mem (l : List String) (y : String) :
    y ∈ jsSetOfList l ↔ y ∈ l := by
  have general : ∀ (l acc : List String), y ∈ l.foldl jsSetAdd acc ↔ y ∈ acc ∨ y ∈ l := by
    intro l
    induction l with
    | nil => simp
    | cons x rest ih =>
      intro acc
      rw [List.foldl_cons, ih, jsSetAdd_mem]
      simp only [List.mem_cons]
      tauto
  rw [jsSetOfList, general]
  simp

theorem jsSetAdd_nodup (l : List String) (x : String) (h : l.Nodup) :
    (jsSetAdd l x).Nodup := by
  rw [jsSetAdd]
  split
  · exact h
  · rename_i hc
    have hx : x ∉ l := fun hmem => hc (List.elem_iff.mpr hmem)
    rw [List.nodup_append]
    refine ⟨h, List.nodup_singleton _, ?disj⟩
    intro a ha hmem
    rw [List.mem_singleton] at hmem
    subst hmem
    exact hx ha

theorem jsSetOfList_nodup (l : List String) : (jsSetOfList l).Nodup := by
  have general : ∀ (l acc : List String), acc.Nodup → (l.foldl jsSetAdd acc).Nodup := by
    intro l
    induction l with
    | nil => exact fun acc h => h
    | cons x rest ih => exact fun acc h => ih _ (jsSetAdd_nodup acc x h)
  exact general l [] List.nodup_nil

theorem checkLinksLoop_partition (probe : String → ProbeOutcome) (time : String → Nat)
    (urls : List String) (workingCount : Nat) (brokenLinks : List LinkStatus) :
    (checkLinksLoop probe time urls workingCount brokenLinks).1 +
      (checkLinksLoop probe time urls workingCount brokenLinks).2.length =
      workingCount + brokenLinks.length + urls.length := by
  induction urls generalizing workingCount brokenLinks with
  | nil => simp [checkLinksLoop]
  | cons u rest ih =>
    rw [checkLinksLoop]
    split
    · rw [ih]; simp; omega
    · rw [ih]; simp; omega

theorem checkLinksLoop_broken_mem (probe : String → ProbeOutcome) (time : String → Nat)
    (urls : List String) (workingCount : Nat) (brokenLinks : List LinkStatus)
    (l : LinkStatus) (h : l ∈ (checkLinksLoop probe time urls workingCount brokenLinks).2) :
    l ∈ brokenLinks ∨ ∃ u, l = checkLink u (probe u) (time u) := by
  induction urls generalizing workingCount brokenLinks with
  | nil => exact Or.inl h
  | cons u rest ih =>
    rw [checkLinksLoop] at h
    split at h
    · exact ih _ _ h
    · rcases ih _ _ h with hin | hnew
      · rw [List.mem_append] at hin
        rcases hin with hold | hone
        · exact Or.inl hold
        · rw [List.mem_singleton] at hone
          exact Or.inr ⟨u, hone⟩
      · exact Or.inr hnew

theorem checkLink_chain_le_one (url : String) (outcome : ProbeOutcome) (t : Nat) :
    (checkLink url outcome t).redirectChainLength ≤ 1 := by
  cases outcome with
  | response status statusText requestUrl location =>
    cases requestUrl with
    | none => simp [checkLink]
    | some u =>
      by_cases hu : u ≠ some url <;> simp [checkLink, hu]
  | timeoutErr => simp [checkLink]
  | otherErr msg => simp [checkLink]

theorem canCrawl_eq_false_iff (pol : RobotsPolicy) (path : String) :
    canCrawl pol path = false ↔
      pol.disallow.any (fun pat => robotsPathMatch pat path) = true := by
  rw [canCrawl]
  by_cases hd : pol.disallow.any (fun pat => robotsPathMatch pat path) = true
  · simp [hd]
  · simp only [hd, if_false]
    by_cases ha : pol.allow.any (fun pat => robotsPathMatch pat path) = true <;> simp [ha, hd]

theorem strStartsWith_head (s p : String) (c : Char) (hp : p.toList.head? = some c)
    (h : strStartsWith s p = true) : s.toList.head? = some c := by
  rw [strStartsWith, List.isPrefixOf_iff_prefix] at h
  obtain ⟨t, ht⟩ := h
  rw [← ht]
  cases hq : p.toList with
  | nil => rw [hq] at hp; simp at hp
  | cons d rest =>
    rw [hq] at hp
    simp at hp
    simp [hq, hp]

theorem strStartsWith_eq_false_of_head (s p : String) (c d : Char)
    (hs : s.toList.head? = some c) (hp : p.toList.head? = some d) (hne : c ≠ d) :
    strStartsWith s p = false := by
  by_contra hcon
  rw [Bool.not_eq_false] at hcon
  have := strStartsWith_head s p d hp hcon
  rw [hs] at this
  exact hne (by simpa using this)

theorem crawlPagesMap_pagesOk (world : String → Option PageMetadata)
    (sitemapEntries : List String) (robotsTxt url : String) (seed : ParsedURL)
    (maxDepth maxPages : Nat) (respectRobotsTxt : Bool) :
    PagesOk maxPages
      (crawlPagesMap world sitemapEntries robotsTxt url seed maxDepth maxPages
        respectRobotsTxt) := by
  rw [crawlPagesMap]
  split
  · constructor
    · exact sitemapCrawlLoop_keys_nodup world _ [] List.nodup_nil
    · calc (sitemapCrawlLoop world
            ((fetchSitemap sitemapEntries (originOf seed ++ ("/sitemap.xml"))).take maxPages)
            []).length
          ≤ [].length + ((fetchSitemap sitemapEntries
              (originOf seed ++ ("/sitemap.xml"))).take maxPages).length :=
            sitemapCrawlLoop_length_le world _ []
        _ ≤ maxPages := by
            simp only [List.length_nil, Nat.zero_add]
            exact le_trans (List.length_take_le _ _) (le_refl _)
  · exact recursiveCrawl_pagesOk world _ maxDepth maxPages url 0 ⟨[], []⟩
      ⟨List.nodup_nil, Nat.zero_le _⟩

theorem crawlWebsite_ok_fields (world : String → Option PageMetadata)
    (sitemapEntries : List String) (robotsTxt url : String) (maxDepth maxPages : Nat)
    (respectRobotsTxt : Bool) (timestamp : String) (crawlDuration : Nat)
    (r : CrawlResult) (seed : ParsedURL) (hseed : parseURL url = some seed)
    (h : crawlWebsite world sitemapEntries robotsTxt url maxDepth maxPages respectRobotsTxt
      timestamp crawlDuration = Except.ok r) :
    r.totalPages = (crawlPagesMap world sitemapEntries robotsTxt url seed maxDepth maxPages
        respectRobotsTxt).pages.length ∧
    r.pages = (crawlPagesMap world sitemapEntries robotsTxt url seed maxDepth maxPages
        respectRobotsTxt).pages.map (fun e => e.2) ∧
    r.errors = (crawlPagesMap world sitemapEntries robotsTxt url seed maxDepth maxPages
        respectRobotsTxt).errors ∧
    r.sitemapFound =
      decide ((fetchSitemap sitemapEntries (originOf seed ++ ("/sitemap.xml"))).length > 0) := by
  simp only [crawlWebsite, hseed] at h
  rw [Except.ok.injEq] at h
  subst h
  exact ⟨rfl, rfl, rfl, rfl⟩

theorem crawlWebsite_error_of_invalid (world : String → Option PageMetadata)
    (sitemapEntries : List String) (robotsTxt url : String) (maxDepth maxPages : Nat)
    (respectRobotsTxt : Bool) (timestamp : String) (crawlDuration : Nat)
    (hseed : parseURL url = none) :
    crawlWebsite world sitemapEntries robotsTxt url maxDepth maxPages respectRobotsTxt
      timestamp crawlDuration = Except.error (("Invalid URL: ") ++ url) := by
  simp only [crawlWebsite, hseed]

theorem checkBrokenLinks_ok_fields (probe : String → ProbeOutcome) (time : String → Nat)
    (crawlPages : Option (List PageMetadata)) (urls : List String)
    (providedDomain : Option String) (useCrawlData checkExternal : Bool)
    (timestamp : String) (r : BrokenLinkResult)
    (h : checkBrokenLinks probe time crawlPages urls providedDomain useCrawlData
      checkExternal timestamp = Except.ok r) :
    r.brokenLinks =
      (checkLinksLoop probe time (collectAllLinks crawlPages urls useCrawlData checkExternal)
        0 []).2 ∧
    r.workingLinks =
      (checkLinksLoop probe time (collectAllLinks crawlPages urls useCrawlData checkExternal)
        0 []).1 ∧
    r.totalChecked = (collectAllLinks crawlPages urls useCrawlData checkExternal).length ∧
    r.summary.total404 = (r.brokenLinks.filter (fun l => l.status = 404)).length ∧
    r.summary.totalTimeouts =
      (r.brokenLinks.filter (fun l => jsIncludes (l.error.getD ((""))) (("timeout")))).length ∧
    r.summary.totalRedirectChains =
      (r.brokenLinks.filter (fun l => l.redirectChainLength > 2)).length := by
  simp only [checkBrokenLinks] at h
  repeat' split at h
  all_goals first
    | exact Except.noConfusion h
    | (rw [Except.ok.injEq] at h; subst h; exact ⟨rfl, rfl, rfl, rfl, rfl, rfl⟩)

theorem canCrawl_eq_not_any_disallow (pol : RobotsPolicy) (path : String) :
    canCrawl pol path = !(pol.disallow.any (fun pat => robotsPathMatch pat path)) := by
  rw [canCrawl]
  by_cases hd : pol.disallow.any (fun pat => robotsPathMatch pat path) = true
  · simp [hd]
  · by_cases ha : pol.allow.any (fun pat => robotsPathMatch pat path) = true <;>
      simp [ha, Bool.eq_false_iff.mpr hd]

/-! ## Claims -/

/-- C3 (counterexample): for the robots document
`User-agent: *`, `Disallow: /admin`, `Allow: /admin/public`, the path
`/admin/public` matches both an accumulated disallow pattern and an
accumulated allow pattern, yet `canCrawl` returns `false` — so the
claimed allow override does not hold. -/
theorem canCrawl_allow_override_cex :
    ((parseRobotsText ("User-agent: *\nDisallow: /admin\nAllow: /admin/public")
        ("*")).disallow.any
        (fun pat => robotsPathMatch pat ("/admin/public")) = true) ∧
    ((parseRobotsText ("User-agent: *\nDisallow: /admin\nAllow: /admin/public")
        ("*")).allow.any
        (fun pat => robotsPathMatch pat ("/admin/public")) = true) ∧
    canCrawl (parseRobotsText ("User-agent: *\nDisallow: /admin\nAllow: /admin/public")
      ("*")) ("/admin/public") = false := by
  decide

/-- C3 (amended): `canCrawl path` returns `false` exactly when the path
matches some accumulated disallow pattern; the accumulated allow patterns
never affect the result (the disallow loop returns first, and a path
matching no disallow is permitted by default, so even a path matching
both a disallow and an allow pattern is rejected).  The spec's concrete
default-allow example behaves as it states. -/
theorem canCrawl_disallow_decides (pol : RobotsPolicy) (path : String) :
    (canCrawl pol path = false ↔
      pol.disallow.any (fun pat => robotsPathMatch pat path) = true) ∧
    (∀ allowRules : List String,
      canCrawl ⟨allowRules, pol.disallow, pol.canSitemap⟩ path = canCrawl pol path) ∧
    (canCrawl (parseRobotsText ("User-agent: *\nDisallow: /admin\nAllow: /public") ("*"))
        ("/public") = true ∧
      canCrawl (parseRobotsText ("User-agent: *\nDisallow: /admin\nAllow: /public") ("*"))
        ("/admin") = false ∧
      canCrawl (parseRobotsText ("User-agent: *\nDisallow: /admin\nAllow: /public") ("*"))
        ("/other") = true) := by
  refine ⟨canCrawl_eq_false_iff pol path, fun allowRules => ?indep, by decide⟩
  rw [canCrawl_eq_not_any_disallow, canCrawl_eq_not_any_disallow]

/-- C4 (counterexample): with requested identity `Googlebot`, the
document `User-agent: *`, `Disallow: /a`, `User-agent: Zebra`,
`Disallow: /b` yields the disallow rules `[/a, /b]` — the `Disallow: /b`
directive sits under the non-matching `User-agent: Zebra` block (Zebra is
neither `Googlebot` nor `*`) yet contributes to the returned policy, and
`/b` is consequently rejected. -/
theorem robots_block_leak_cex :
    (parseRobotsText ("User-agent: *\nDisallow: /a\nUser-agent: Zebra\nDisallow: /b")
        ("Googlebot")).disallow = [("/a"), ("/b")] ∧
    canCrawl (parseRobotsText ("User-agent: *\nDisallow: /a\nUser-agent: Zebra\nDisallow: /b")
      ("Googlebot")) ("/b") = false := by
  decide

/-- C4 (amended): a `User-agent` line whose agent matches the requested
identity (exactly or as `*`) resets the accumulated allow/disallow sets to
empty, so a matching block starts empty and a later matching block
discards earlier rules; a non-matching `User-agent` line leaves the parser
state entirely unchanged — in particular it does not clear the
active-block flag, so `Allow`/`Disallow` directives under a non-matching
block that follows a matching one are appended to the previous matching
block's rules; and directives seen while no block has matched yet (the
active agent is still empty) contribute nothing. -/
theorem robots_block_reset (ua : String) (st : RobotsParseState) (line : String) :
    (∀ agent, strStartsWith (strTrim line) ("User-agent:") = true →
      strTrim (removeFirstOcc (strTrim line) ("User-agent:")) = agent →
      (agent = ua ∨ agent = ("*")) →
      robotsLine ua st line = ⟨agent, [], [], st.canSitemap⟩) ∧
    (strStartsWith (strTrim line) ("User-agent:") = true →
      strTrim (removeFirstOcc (strTrim line) ("User-agent:")) ≠ ua →
      strTrim (removeFirstOcc (strTrim line) ("User-agent:")) ≠ ("*") →
      robotsLine ua st line = st) ∧
    (st.currentAgent = ("") →
      strStartsWith (strTrim line) ("User-agent:") = false →
      strStartsWith (strTrim line) ("Sitemap:") = false →
      robotsLine ua st line = st) := by
  refine ⟨?match_reset, ?nonmatch_skip, ?no_block⟩
  · intro agent h1 h2 h3
    rcases h3 with h3 | h3 <;>
      · subst h2
        simp only [robotsLine, h1, if_true, h3]
        simp
  · intro h1 h2 h3
    simp only [robotsLine, h1, if_true]
    simp [h2, h3]
  · intro hca h1 h2
    simp only [robotsLine, h1, hca, h2]
    simp

/-- C4 (witness): the amended behaviors at concrete lines: a matching
wildcard block resets, a non-matching `User-agent: Zebra` line changes
nothing, and a directive before any matching block changes nothing. -/
theorem robots_block_reset_witness :
    robotsLine ("Googlebot") ⟨("*"), [("/x")], [("/y")], true⟩ ("User-agent: *") =
      ⟨("*"), [], [], true⟩ ∧
    robotsLine ("Googlebot") ⟨("*"), [("/x")], [("/y")], true⟩ ("User-agent: Zebra") =
      ⟨("*"), [("/x")], [("/y")], true⟩ ∧
    robotsLine ("Googlebot") ⟨(""), [], [], true⟩ ("Disallow: /a") = ⟨(""), [], [], true⟩ :=
  ⟨(robots_block_reset ("Googlebot") ⟨("*"), [("/x")], [("/y")], true⟩
      ("User-agent: *")).1 ("*") (by decide) (by decide) (Or.inr rfl),
   (robots_block_reset ("Googlebot") ⟨("*"), [("/x")], [("/y")], true⟩
      ("User-agent: Zebra")).2.1 (by decide) (by decide) (by decide),
   (robots_block_reset ("Googlebot") ⟨(""), [], [], true⟩
      ("Disallow: /a")).2.2 rfl (by decide) (by decide)⟩

/-- C5: `normalizeUrl` returns absolute http(s) inputs unchanged; with a
parseable base it maps a leading-`/` input to the base's scheme and host
plus that path, appends a leading-`#`/`?` input verbatim to the base URL
string, and resolves every other input against the base with browser
relative-resolution (`jsResolve`, checked on the three concrete examples);
with a missing or unparseable base it returns the input unchanged (the
function is total, so it never throws). -/
theorem normalizeUrl_resolution (url b : String) (base : ParsedURL) :
    ((strStartsWith url ("http://") = true ∨ strStartsWith url ("https://") = true) →
      ∀ baseUrl : Option String, normalizeUrl url baseUrl = url) ∧
    (parseURL b = some base → strStartsWith url ("/") = true →
      normalizeUrl url (some b) = base.scheme ++ ("://") ++ base.host ++ url) ∧
    (parseURL b = some base →
      (strStartsWith url ("#") = true ∨ strStartsWith url ("?") = true) →
      normalizeUrl url (some b) = b ++ url) ∧
    (parseURL b = some base →
      strStartsWith url ("http://") = false → strStartsWith url ("https://") = false →
      strStartsWith url ("/") = false → strStartsWith url ("#") = false →
      strStartsWith url ("?") = false →
      normalizeUrl url (some b) = jsResolve url base) ∧
    (normalizeUrl url none = url) ∧
    (parseURL b = none → normalizeUrl url (some b) = url) ∧
    (normalizeUrl ("/about") (some ("https://example.com/page/")) =
        ("https://example.com/about") ∧
      normalizeUrl ("contact") (some ("https://example.com/page/")) =
        ("https://example.com/page/contact") ∧
      normalizeUrl ("../about") (some ("https://example.com/page/subpage/")) =
        ("https://example.com/page/about")) := by
  refine ⟨?absolute, ?slash, ?fragment, ?relative, ?nobase, ?badbase, by decide⟩
  · intro habs baseUrl
    rcases habs with h | h <;> simp [normalizeUrl, h]
  · intro hb hs
    have hhead : url.toList.head? = some '/' := strStartsWith_head url ("/") '/' rfl hs
    have h1 : strStartsWith url ("http://") = false :=
      strStartsWith_eq_false_of_head url ("http://") '/' 'h' hhead rfl (by decide)
    have h2 : strStartsWith url ("https://") = false :=
      strStartsWith_eq_false_of_head url ("https://") '/' 'h' hhead rfl (by decide)
    simp [normalizeUrl, h1, h2, hb, hs]
  · intro hb hs
    have hhead : (url.toList.head? = some '#') ∨ (url.toList.head? = some '?') := by
      rcases hs with h | h
      · exact Or.inl (strStartsWith_head url ("#") '#' rfl h)
      · exact Or.inr (strStartsWith_head url ("?") '?' rfl h)
    rcases hhead with hhead | hhead
    all_goals
      have h1 : strStartsWith url ("http://") = false :=
        strStartsWith_eq_false_of_head url ("http://") _ 'h' hhead rfl (by decide)
    all_goals
      have h2 : strStartsWith url ("https://") = false :=
        strStartsWith_eq_false_of_head url ("https://") _ 'h' hhead rfl (by decide)
    all_goals
      have h3 : strStartsWith url ("/") = false :=
        strStartsWith_eq_false_of_head url ("/") _ '/' hhead rfl (by decide)
    all_goals rcases hs with hs | hs
    all_goals simp [normalizeUrl, h1, h2, h3, hb, hs]
  · intro hb h1 h2 h3 h4 h5
    simp [normalizeUrl, h1, h2, h3, h4, h5, hb]
  · by_cases habs : (strStartsWith url ("http://") || strStartsWith url ("https://")) = true <;>
      simp [normalizeUrl, habs]
  · intro hb
    by_cases habs : (strStartsWith url ("http://") || strStartsWith url ("https://")) = true <;>
      simp [normalizeUrl, habs, hb]

/-- C5 (witness): the branch characterizations instantiated at concrete
inputs, each hypothesis discharged by evaluation. -/
theorem normalizeUrl_resolution_witness :
    normalizeUrl ("https://other.example/a") (some ("https://example.com/")) =
        ("https://other.example/a") ∧
    normalizeUrl ("/about") (some ("https://example.com/page/")) =
        ("https") ++ ("://") ++ ("example.com") ++ ("/about") ∧
    normalizeUrl ("#frag") (some ("https://example.com/page")) =
        ("https://example.com/page") ++ ("#frag") ∧
    normalizeUrl ("contact") (some ("https://example.com/page/")) =
        jsResolve ("contact") ⟨("https"), ("example.com"), ("/page/")⟩ ∧
    normalizeUrl ("contact") (some ("not a url")) = ("contact") :=
  ⟨(normalizeUrl_resolution ("https://other.example/a") ("https://example.com/")
      ⟨("https"), ("example.com"), ("/")⟩).1 (Or.inr (by decide)) _,
   (normalizeUrl_resolution ("/about") ("https://example.com/page/")
      ⟨("https"), ("example.com"), ("/page/")⟩).2.1 (by decide) (by decide),
   (normalizeUrl_resolution ("#frag") ("https://example.com/page")
      ⟨("https"), ("example.com"), ("/page")⟩).2.2.1 (by decide) (Or.inl (by decide)),
   (normalizeUrl_resolution ("contact") ("https://example.com/page/")
      ⟨("https"), ("example.com"), ("/page/")⟩).2.2.2.1 (by decide) (by decide) (by decide)
      (by decide) (by decide) (by decide),
   (normalizeUrl_resolution ("contact") ("not a url")
      ⟨("https"), ("example.com"), ("/")⟩).2.2.2.2.2.1 (by decide)⟩

theorem contains_eq_false_iff (l : List String) (x : String) :
    l.contains x = false ↔ x ∉ l := by
  rw [← Bool.not_eq_true, not_iff_not]
  exact List.elem_iff

/-- C7: a URL is returned by `findOrphanedPages` exactly when it is a
discovered page URL, is referenced by no page's internal-link set, and is
not the site root `https://domain`; on the spec's three-page example with
root `A` the orphan list is exactly `[C]`. -/
theorem findOrphanedPages_set_difference (domain : String) (pages : List PageMetadata)
    (url : String) :
    (url ∈ findOrphanedPages domain (some pages) ↔
      (url ∈ pages.map (fun p => p.url) ∧
        url ∉ pages.flatMap (fun p => p.links.internal) ∧
        url ≠ ("https://") ++ domain)) ∧
    findOrphanedPages ("example.com")
      (some [samplePage ("https://example.com") [("https://example.com/b")],
        samplePage ("https://example.com/b") [],
        samplePage ("https://example.com/c") []]) = [("https://example.com/c")] := by
  constructor
  · rw [findOrphanedPages]
    simp only [List.mem_filter, jsSetOfList_mem, Bool.and_eq_true, decide_eq_true_eq,
      Bool.not_eq_true', contains_eq_false_iff, jsSetOfList_mem]
    tauto
  · decide

/-- C8: a probe is classified working exactly when its final status lies
in [200,400); an HTTP 404 response yields a broken entry with status 404;
a timeout yields a broken entry with status 0 whose error contains
`timeout`; and on a run whose single candidate times out the summary
tallies it under timeouts (1) and not under 404s (0). -/
theorem checkLink_classification (url : String) (t : Nat) :
    (∀ outcome, (checkLink url outcome t).isWorking = true ↔
      (200 ≤ (checkLink url outcome t).status ∧ (checkLink url outcome t).status < 400)) ∧
    (∀ statusText requestUrl location,
      (checkLink url (.response 404 statusText requestUrl location) t).isWorking = false ∧
      (checkLink url (.response 404 statusText requestUrl location) t).status = 404) ∧
    ((checkLink url .timeoutErr t).isWorking = false ∧
      (checkLink url .timeoutErr t).status = 0 ∧
      jsIncludes ((checkLink url .timeoutErr t).error.getD ((""))) (("timeout")) = true ∧
      ¬ (checkLink url .timeoutErr t).status = 404) ∧
    (checkBrokenLinks timeoutProbe (fun _ => 7) none [("https://site.example/t")] none true
        false ("ts") = Except.ok sampleTimeoutResult ∧
      sampleTimeoutResult.summary.totalTimeouts = 1 ∧
      sampleTimeoutResult.summary.total404 = 0) := by
  refine ⟨?working, ?notFound, ?timeout, rfl, rfl, rfl⟩
  · intro outcome
    cases outcome with
    | response status statusText requestUrl location =>
      simp [checkLink, Nat.lt_iff_add_one_le]
    | timeoutErr => simp [checkLink]
    | otherErr msg => simp [checkLink]
  · intro statusText requestUrl location
    constructor
    · simp [checkLink]
    · rfl
  · exact ⟨rfl, rfl, rfl, by simp [checkLink]⟩

/-- C9: every link-check outcome has `redirectChainLength` 0 or 1 — it is
1 exactly when the request object's final URL field differs from the
requested URL, and 0 on every error outcome and when no request object is
attached — and consequently `totalRedirectChains`, which counts broken
entries with `redirectChainLength > 2`, is 0 in every produced result. -/
theorem redirect_chain_binary (url : String) (t : Nat) :
    (∀ outcome, (checkLink url outcome t).redirectChainLength ≤ 1) ∧
    (∀ status statusText u location,
      ((checkLink url (.response status statusText (some u) location) t).redirectChainLength
          = 1 ↔ u ≠ some url)) ∧
    (∀ status statusText location,
      (checkLink url (.response status statusText none location) t).redirectChainLength = 0) ∧
    ((checkLink url .timeoutErr t).redirectChainLength = 0 ∧
      ∀ msg, (checkLink url (.otherErr msg) t).redirectChainLength = 0) ∧
    (∀ probe time crawlPages urls providedDomain useCrawlData checkExternal ts r,
      checkBrokenLinks probe time crawlPages urls providedDomain useCrawlData checkExternal
          ts = Except.ok r →
        r.summary.totalRedirectChains = 0) := by
  refine ⟨(checkLink_chain_le_one url · t), ?when_one, ?no_request, ⟨rfl, fun msg => rfl⟩,
    ?total_zero⟩
  · intro status statusText u location
    by_cases hu : u ≠ some url <;> simp [checkLink, hu]
  · intro status statusText location
    rfl
  · intro probe time crawlPages urls providedDomain useCrawlData checkExternal ts r h
    obtain ⟨hbroken, -, -, -, -, hchains⟩ :=
      checkBrokenLinks_ok_fields probe time crawlPages urls providedDomain useCrawlData
        checkExternal ts r h
    rw [hchains, List.length_eq_zero, List.filter_eq_nil_iff]
    intro l hl
    rcases checkLinksLoop_broken_mem probe time _ 0 [] l (hbroken ▸ hl) with hin | ⟨u, hu⟩
    · exact absurd hin (List.not_mem_nil l)
    · have := checkLink_chain_le_one u (probe u) (time u)
      rw [hu]
      simp only [decide_eq_true_eq, Nat.not_lt]
      omega

/-- C9 (witness): the run with a single timing-out candidate produces a
result, and its `totalRedirectChains` is 0. -/
theorem redirect_chain_binary_witness :
    checkBrokenLinks timeoutProbe (fun _ => 7) none [("https://site.example/t")] none true
        false ("ts") = Except.ok sampleTimeoutResult ∧
      sampleTimeoutResult.summary.totalRedirectChains = 0 :=
  ⟨rfl,
    (redirect_chain_binary ("https://site.example/t") 7).2.2.2.2 timeoutProbe (fun _ => 7)
      none [("https://site.example/t")] none true false ("ts") sampleTimeoutResult rfl⟩

/-- C10: in every result `checkBrokenLinks` produces, each candidate is
counted exactly once as working or broken — `workingLinks` plus the
number of `brokenLinks` entries equals `totalChecked` — and `totalChecked`
is the number of distinct candidate URLs (the deduplicated candidate list,
which carries no duplicates). -/
theorem checkBrokenLinks_counts (probe : String → ProbeOutcome) (time : String → Nat)
    (crawlPages : Option (List PageMetadata)) (urls : List String)
    (providedDomain : Option String) (useCrawlData checkExternal : Bool)
    (timestamp : String) (r : BrokenLinkResult)
    (h : checkBrokenLinks probe time crawlPages urls providedDomain useCrawlData
      checkExternal timestamp = Except.ok r) :
    r.workingLinks + r.brokenLinks.length = r.totalChecked ∧
    r.totalChecked = (collectAllLinks crawlPages urls useCrawlData checkExternal).length ∧
    (collectAllLinks crawlPages urls useCrawlData checkExternal).Nodup := by
  obtain ⟨hbroken, hworking, htotal, -, -, -⟩ :=
    checkBrokenLinks_ok_fields probe time crawlPages urls providedDomain useCrawlData
      checkExternal timestamp r h
  refine ⟨?partition, htotal, ?nodup⟩
  · rw [hbroken, hworking, htotal]
    have := checkLinksLoop_partition probe time
      (collectAllLinks crawlPages urls useCrawlData checkExternal) 0 []
    simpa using this
  · exact jsSetOfList_nodup _

/-- C10 (witness): the counts on the concrete single-candidate run. -/
theorem checkBrokenLinks_counts_witness :
    sampleTimeoutResult.workingLinks + sampleTimeoutResult.brokenLinks.length =
        sampleTimeoutResult.totalChecked ∧
      sampleTimeoutResult.totalChecked =
        (collectAllLinks none [("https://site.example/t")] true false).length :=
  ⟨(checkBrokenLinks_counts timeoutProbe (fun _ => 7) none [("https://site.example/t")]
      none true false ("ts") sampleTimeoutResult rfl).1,
   (checkBrokenLinks_counts timeoutProbe (fun _ => 7) none [("https://site.example/t")]
      none true false ("ts") sampleTimeoutResult rfl).2.1⟩

/-- C1: in every crawl run the Page Graph keys are pairwise distinct and
never exceed `maxPages` in number (so every produced Crawl Result reports
at most `maxPages` pages); a recursive call at a depth beyond `maxDepth`
inserts nothing, so no page is first discovered deeper than `maxDepth`;
and on the concrete site whose root links to itself the self-link produces
neither a duplicate key nor divergence (the crawl function is total and
returns the two distinct pages once each). -/
theorem crawl_bounded_deduplicated (world : String → Option PageMetadata)
    (sitemapEntries : List String) (robotsTxt url : String) (seed : ParsedURL)
    (maxDepth maxPages : Nat) (respectRobotsTxt : Bool) :
    (((crawlPagesMap world sitemapEntries robotsTxt url seed maxDepth maxPages
        respectRobotsTxt).pages.map Prod.fst).Nodup ∧
      (crawlPagesMap world sitemapEntries robotsTxt url seed maxDepth maxPages
        respectRobotsTxt).pages.length ≤ maxPages) ∧
    (∀ timestamp crawlDuration r,
      crawlWebsite world sitemapEntries robotsTxt url maxDepth maxPages respectRobotsTxt
          timestamp crawlDuration = Except.ok r →
        r.totalPages ≤ maxPages ∧ r.pages.length ≤ maxPages) ∧
    (∀ canCrawlFn pageUrl depth st, maxDepth < depth →
      recursiveCrawl world canCrawlFn maxDepth maxPages pageUrl depth st = st) ∧
    ((recursiveCrawl selfLinkWorld (fun _ => true) 3 100 ("https://site.example/") 0
        ⟨[], []⟩).pages.map Prod.fst =
      [("https://site.example/"), ("https://site.example/b")]) := by
  refine ⟨crawlPagesMap_pagesOk world sitemapEntries robotsTxt url seed maxDepth maxPages
      respectRobotsTxt, ?ok_bound,
    fun canCrawlFn pageUrl depth st h =>
      recursiveCrawl_depth_exceeded world canCrawlFn maxDepth maxPages pageUrl depth st h,
    ?selflink⟩
  · intro ts dur r hok
    cases hp : parseURL url with
    | none =>
      simp only [crawlWebsite, hp] at hok
      exact Except.noConfusion hok
    | some seed2 =>
      obtain ⟨htot, hpages, -, -⟩ := crawlWebsite_ok_fields world sitemapEntries robotsTxt
        url maxDepth maxPages respectRobotsTxt ts dur r seed2 hp hok
      have hlen := (crawlPagesMap_pagesOk world sitemapEntries robotsTxt url seed2 maxDepth
        maxPages respectRobotsTxt).2
      constructor
      · rw [htot]; exact hlen
      · rw [hpages, List.length_map]; exact hlen
  · simp [recursiveCrawl.eq_def, crawlChildLinks.eq_def, selfLinkWorld, samplePage, mapHas,
      mapSet, parseURL, strStartsWith, List.isPrefixOf]

/-- C1 (witness): the bound instantiated on the concrete sitemap run, and
the depth guard instantiated at depth 4 with `maxDepth` 3. -/
theorem crawl_bounded_deduplicated_witness :
    (sampleSitemapCrawlResult.totalPages ≤ 100 ∧
      sampleSitemapCrawlResult.pages.length ≤ 100) ∧
    recursiveCrawl selfLinkWorld (fun _ => true) 3 100 ("https://site.example/z") 4
      ⟨[], []⟩ = ⟨[], []⟩ :=
  ⟨(crawl_bounded_deduplicated selfLinkWorld [("https://site.example/")] ("")
      ("https://site.example/") ⟨("https"), ("site.example"), ("/")⟩ 3 100 true).2.1
      ("ts") 0 sampleSitemapCrawlResult rfl,
   (crawl_bounded_deduplicated selfLinkWorld [("https://site.example/")] ("")
      ("https://site.example/") ⟨("https"), ("site.example"), ("/")⟩ 3 100 true).2.2.1
      (fun _ => true) ("https://site.example/z") 4 ⟨[], []⟩ (by decide)⟩

/-- C2 (code evaluation): during the recursive crawl a failed page fetch
appends nothing to the error list — `crawlPage` catches every failure
internally and returns `null`, so the `catch` block in `recursiveCrawl`
that would append the Crawl Error is unreachable and the error list is
invariant across the whole traversal.  On the concrete site whose root
links to `/broken` (fetch fails) and then `/c` (fetch succeeds), the
failed URL never becomes a Page Graph key and the traversal continues to
`/c`, but the error list stays empty instead of receiving one record. -/
theorem crawl_failed_fetch_records_nothing (world : String → Option PageMetadata)
    (canCrawlFn : String → Bool) (maxDepth maxPages : Nat) (pageUrl : String)
    (depth : Nat) (st : CrawlState) :
    (recursiveCrawl world canCrawlFn maxDepth maxPages pageUrl depth st).errors =
      st.errors ∧
    (recursiveCrawl failingFetchWorld (fun _ => true) 3 100 ("https://site.example/") 0
      ⟨[], []⟩).errors = [] ∧
    (recursiveCrawl failingFetchWorld (fun _ => true) 3 100 ("https://site.example/") 0
        ⟨[], []⟩).pages.map Prod.fst =
      [("https://site.example/"), ("https://site.example/c")] := by
  refine ⟨recursiveCrawl_errors world canCrawlFn maxDepth maxPages pageUrl depth st,
    ?cerr, ?cpages⟩
  all_goals
    simp [recursiveCrawl.eq_def, crawlChildLinks.eq_def, failingFetchWorld, samplePage,
      mapHas, mapSet, parseURL, strStartsWith, List.isPrefixOf]

/-- C6 (counterexample): a sitemap parsing to exactly one same-domain URL
whose page fetch fails marks the sitemap used and skips the recursive
path, but leaves the Page Graph with 0 pages, not min(1, maxPages) = 1. -/
theorem sitemap_exact_count_cex :
    (fetchSitemap [("https://site.example/x")] ("https://site.example/sitemap.xml")).length
        = 1 ∧
    min 1 100 = 1 ∧
    (crawlWebsite (fun _ => (none : Option PageMetadata)) [("https://site.example/x")]
        ("") ("https://site.example/") 3 100 true ("ts") 0).map
      (fun r => (r.sitemapFound, r.totalPages)) = Except.ok (true, 0) :=
  ⟨by decide, by decide, rfl⟩

/-- C6 (amended): whenever the sitemap parses to N ≥ 1 same-domain URLs,
the crawl marks the sitemap used and the recursive crawl path is never
invoked (the result is independent of the robots document, `maxDepth` and
the robots toggle), and the Page Graph holds at most min(N, maxPages)
pages — exactly min(N, maxPages) when the first min(N, maxPages) sitemap
URLs are pairwise distinct and each of their fetches succeeds. -/
theorem sitemap_path_page_count (world : String → Option PageMetadata)
    (sitemapEntries : List String) (robotsTxt url : String) (seed : ParsedURL)
    (maxDepth maxPages : Nat) (respectRobotsTxt : Bool) (timestamp : String)
    (crawlDuration : Nat) (r : CrawlResult)
    (hseed : parseURL url = some seed)
    (hN : 0 < (fetchSitemap sitemapEntries (originOf seed ++ ("/sitemap.xml"))).length)
    (hok : crawlWebsite world sitemapEntries robotsTxt url maxDepth maxPages
      respectRobotsTxt timestamp crawlDuration = Except.ok r) :
    r.sitemapFound = true ∧
    r.totalPages ≤
      min (fetchSitemap sitemapEntries (originOf seed ++ ("/sitemap.xml"))).length
        maxPages ∧
    ((((fetchSitemap sitemapEntries (originOf seed ++ ("/sitemap.xml"))).take
          maxPages).Nodup ∧
        (∀ u ∈ (fetchSitemap sitemapEntries (originOf seed ++ ("/sitemap.xml"))).take
          maxPages, (world u).isSome = true)) →
      r.totalPages =
        min (fetchSitemap sitemapEntries (originOf seed ++ ("/sitemap.xml"))).length
          maxPages) ∧
    (∀ robotsTxt2 maxDepth2 respectRobotsTxt2,
      crawlWebsite world sitemapEntries robotsTxt2 url maxDepth2 maxPages
          respectRobotsTxt2 timestamp crawlDuration =
        crawlWebsite world sitemapEntries robotsTxt url maxDepth maxPages respectRobotsTxt
          timestamp crawlDuration) := by
  obtain ⟨htot, -, -, hsm⟩ := crawlWebsite_ok_fields world sitemapEntries robotsTxt url
    maxDepth maxPages respectRobotsTxt timestamp crawlDuration r seed hseed hok
  have hpages : (crawlPagesMap world sitemapEntries robotsTxt url seed maxDepth maxPages
      respectRobotsTxt).pages =
      sitemapCrawlLoop world
        ((fetchSitemap sitemapEntries (originOf seed ++ ("/sitemap.xml"))).take maxPages)
        [] := by
    rw [crawlPagesMap, if_pos hN]
  refine ⟨?found, ?le, ?exact, ?indep⟩
  · rw [hsm]
    simpa using hN
  · rw [htot, hpages]
    calc (sitemapCrawlLoop world
          ((fetchSitemap sitemapEntries (originOf seed ++ ("/sitemap.xml"))).take maxPages)
          []).length
        ≤ [].length + ((fetchSitemap sitemapEntries
            (originOf seed ++ ("/sitemap.xml"))).take maxPages).length :=
          sitemapCrawlLoop_length_le world _ []
      _ = min (fetchSitemap sitemapEntries
            (originOf seed ++ ("/sitemap.xml"))).length maxPages := by
          simp [List.length_take, Nat.min_comm]
  · rintro ⟨hnd, hsome⟩
    rw [htot, hpages, sitemapCrawlLoop_length_of_success world _ [] hnd hsome
      (fun u _ => rfl)]
    simp [List.length_take, Nat.min_comm]
  · intro robotsTxt2 maxDepth2 respectRobotsTxt2
    simp [crawlWebsite, hseed, crawlPagesMap, hN]

/-- C6 (witness): the amended count on a concrete run whose single
sitemap URL is fetched successfully. -/
theorem sitemap_path_page_count_witness :
    sampleSitemapCrawlResult.sitemapFound = true ∧
    sampleSitemapCrawlResult.totalPages =
      min (fetchSitemap [("https://site.example/")]
        (originOf ⟨("https"), ("site.example"), ("/")⟩ ++ ("/sitemap.xml"))).length 100 :=
  ⟨(sitemap_path_page_count selfLinkWorld [("https://site.example/")] ("")
      ("https://site.example/") ⟨("https"), ("site.example"), ("/")⟩ 3 100 true ("ts") 0
      sampleSitemapCrawlResult rfl (by decide) rfl).1,
   (sitemap_path_page_count selfLinkWorld [("https://site.example/")] ("")
      ("https://site.example/") ⟨("https"), ("site.example"), ("/")⟩ 3 100 true ("ts") 0
      sampleSitemapCrawlResult rfl (by decide) rfl).2.2.1 ⟨by decide, by decide⟩⟩

end WebReview
